import Mathlib

/-!
Verification development for the fcitx-mozc sources in this repository:
the engine lifecycle / hot-reload controller declared in
src/engine/engine.h and the calculator rewriter implemented in
src/rewriter/calculator/calculator.cc.

Pure C++ functions are embedded as Lean functions over explicit state;
the nullable pointers of the C++ code become Option values (none models a
null pointer, so a dereference of an absent object is modelled by a none
result).  Helper code of the repository that is not among the given
sources (engine.cc, minimal_engine.cc, base/japanese_util, NumberUtil,
the Lemon-generated parser.c.inc) is modelled from the specification;
every such definition carries a doc comment saying so.
-/

namespace FcitxMozc

/-! ## Calculator rewriter: src/rewriter/calculator/calculator.cc -/

/-- Token types of the calculator tokenizer.  They mirror the Lemon parser
token ids used by CalculatorImpl (INTEGER, PLUS, MINUS, TIMES, DIVIDE, MOD,
POW, LP, RP). -/
inductive TokenType where
  | INTEGER
  | PLUS
  | MINUS
  | TIMES
  | DIVIDE
  | MOD
  | POW
  | LP
  | RP
deriving DecidableEq, Repr

/-- A token of CalculatorImpl::TokenSequence.  The C++ code stores
(token id, double value); the numeric value is kept here as the source
text of the token, since no claim depends on floating-point arithmetic. -/
abbrev Token : Type := TokenType × List Char

/-- Embedding of CalculatorImpl::operator_map_ (calculator.cc, constructor):
the mapping from an operator character to its token type.  The two
non-ASCII entries are the chou-ompu (treated as MINUS) and the katakana
middle dot (treated as DIVIDE); they are single characters here, matching
the 3-byte UTF-8 windows the byte-level loop looks up. -/
def operatorMap (c : Char) : Option TokenType :=
  if c = '+' then some TokenType.PLUS
  else if c = '-' then some TokenType.MINUS
  else if c = 'ー' then some TokenType.MINUS
  else if c = '*' then some TokenType.TIMES
  else if c = '/' then some TokenType.DIVIDE
  else if c = '・' then some TokenType.DIVIDE
  else if c = '%' then some TokenType.MOD
  else if c = '^' then some TokenType.POW
  else if c = '(' then some TokenType.LP
  else if c = ')' then some TokenType.RP
  else none

/-- Characters skipped by the tokenizer's space-skipping loop
(calculator.cc:173). -/
def isSpaceChar (c : Char) : Bool := c = ' ' || c = '\t'

/-- Characters accepted by the tokenizer's value-reading loop
(calculator.cc:179): ASCII digits and the dot. -/
def isNumChar (c : Char) : Bool := ('0' ≤ c && c ≤ '9') || c = '.'

/-- Modelled from the spec: NumberUtil::SafeStrToDouble (base/number_util is
not among the sources).  It converts a decimal literal, rejecting strings
that are not entirely consumed by strtod; restricted to the digit/dot
strings the tokenizer produces this accepts exactly the strings with at
least one digit and at most one dot.  (The real function additionally
rejects out-of-range literals; the model omits that, which only enlarges
the success set and never affects the proved failure results.) -/
def safeStrToDoubleOk (cs : List Char) : Bool :=
  decide (1 ≤ cs.countP (fun c => '0' ≤ c && c ≤ '9')) &&
  decide (cs.countP (fun c => c = '.') ≤ 1)

/-- The tokenizer loop of CalculatorImpl::Tokenize (calculator.cc:171-219),
one recursive step per iteration of the C++ while loop: skip spaces, read a
maximal digit/dot run (a value token checked by SafeStrToDouble), otherwise
read one operator character, otherwise fail.  When the space-skipping loop
reaches the end of the expression, the operator window check
current + length > end fails and the C++ code returns false; that is the
match on the emptied list below.  nv and nop are num_value and
num_operator; parentheses do not increment num_operator
(calculator.cc:208).  The fuel argument only bounds the recursion; each
C++ iteration consumes at least one character, so Tokenize below passes
enough fuel for the loop to always run to its own exit. -/
def tokenizeLoop :
    Nat → List Char → List Token → Nat → Nat → Option (List Token × Nat × Nat)
  | _, [], acc, nv, nop => some (acc, nv, nop)
  | 0, _ :: _, _, _, _ => none
  | fuel + 1, c :: cs, acc, nv, nop =>
    let cs1 := List.dropWhile isSpaceChar (c :: cs)
    let num := List.takeWhile isNumChar cs1
    if num = [] then
      match cs1 with
      | [] => none
      | d :: ds =>
        match operatorMap d with
        | none => none
        | some t =>
          tokenizeLoop fuel ds (acc ++ [((t, [d]) : Token)]) nv
            (if t = TokenType.LP || t = TokenType.RP then nop else nop + 1)
    else
      if safeStrToDoubleOk num then
        tokenizeLoop fuel (cs1.drop num.length)
          (acc ++ [((TokenType.INTEGER, num) : Token)]) (nv + 1) nop
      else none

/-- Embedding of CalculatorImpl::Tokenize (calculator.cc:161-226): run the
tokenizer loop, then require at least one value token and at least one
non-parenthesis operator token (calculator.cc:221-224).  none models a
false return of the C++ function. -/
def Tokenize (body : List Char) : Option (List Token) :=
  match tokenizeLoop (body.length + 1) body [] 0 0 with
  | none => none
  | some (toks, nv, nop) => if nv = 0 || nop = 0 then none else some toks

/-- Modelled from the spec: the character-wise action of
japanese_util::FullWidthAsciiToHalfWidthAscii (base/japanese_util is not
among the sources): a full-width ASCII character (U+FF01 .. U+FF5E) becomes
its half-width counterpart, every other character is kept. -/
def normalizeChar (c : Char) : Char :=
  if 0xFF01 ≤ c.toNat && c.toNat ≤ 0xFF5E then Char.ofNat (c.toNat - 0xFEE0)
  else c

/-- Modelled from the spec: japanese_util::FullWidthAsciiToHalfWidthAscii
(base/japanese_util is not among the sources).  It rewrites each character
by normalizeChar; in particular it is character-wise and preserves the
length of the string. -/
def fullWidthAsciiToHalfWidthAscii (cs : List Char) : List Char :=
  cs.map normalizeChar

/-- The part of CalculatorImpl::CalculateString after the expression body
has been delimited (calculator.cc:141-158): tokenize, then hand the tokens
to the Lemon parser and print the value.  calcFn stands for the composition
of CalculateTokens and the %.8g formatting; the Lemon-generated parser
(parser.c.inc) is not among the sources and arithmetic evaluation is out of
scope for the spec, so it stays a parameter.  The pair returned is (the
bool result, the final contents of *result). -/
def calculateBody (calcFn : List Token → Option (List Char))
    (body : List Char) : Bool × List Char :=
  match Tokenize body with
  | none => (false, [])
  | some toks =>
    match calcFn toks with
    | none => (false, [])
    | some out => (true, out)

/-- Embedding of CalculatorImpl::CalculateString (calculator.cc:116-159).
res0 is the contents of *result when the function is entered; note that
the empty-key early return (calculator.cc:119-122) does not touch *result,
while every later failure path clears it.  The C++ code computes
normalized_key once; here the pure normalization is written out at each
use, which is the same value. -/
def CalculateString (calcFn : List Token → Option (List Char))
    (key res0 : List Char) : Bool × List Char :=
  if key = [] then (false, res0)
  else if (fullWidthAsciiToHalfWidthAscii key).head? = some '=' then
    calculateBody calcFn (fullWidthAsciiToHalfWidthAscii key).tail
  else if (fullWidthAsciiToHalfWidthAscii key).getLast? = some '=' then
    calculateBody calcFn (fullWidthAsciiToHalfWidthAscii key).dropLast
  else (false, [])

/-- Number of INTEGER tokens in a token sequence. -/
def countIntTokens (toks : List Token) : Nat :=
  toks.countP (fun t => t.1 = TokenType.INTEGER)

/-- Number of operator tokens in a token sequence, parentheses not counted
(the quantity num_operator tracks in calculator.cc). -/
def countOpTokens (toks : List Token) : Nat :=
  toks.countP (fun t =>
    !(t.1 = TokenType.INTEGER) && !(t.1 = TokenType.LP) && !(t.1 = TokenType.RP))

/-- Characters whose token is a non-parenthesis operator. -/
def isNonParenOpChar (c : Char) : Bool :=
  match operatorMap c with
  | some t => !(t = TokenType.LP) && !(t = TokenType.RP)
  | none => false

/-- A trivial stand-in for the out-of-scope arithmetic evaluator, used only
to instantiate the calcFn parameter at concrete inputs. -/
def calcFnNone : List Token → Option (List Char) := fun _ => none

/-! ## Engine lifecycle and hot-reload controller: src/engine/engine.h

The accessor bodies below are taken from the inline definitions in
engine.h.  The bodies of the reload operations live in engine.cc, which is
not among the sources; they are modelled from the spec (sections 3, 4.1, 5
and 7) and each such definition says so in its doc comment. -/

/-- Engine flavor: desktop or mobile (the is_mobile flag of engine.h). -/
inductive Flavor where
  | desktop
  | mobile
deriving DecidableEq, Repr

/-- EngineReloadRequest, as the spec describes the wire shape: a
target-data descriptor and an engine-flavor flag. -/
structure ReloadRequest where
  target : String
  flavor : Flavor
deriving DecidableEq, Repr

/-- The engine::Modules bundle of one data generation (the spec's
ModuleBundle): data manager with its version string, the user dictionary's
POS list, the settable spellchecker pointer, and whether the bundle can be
initialized from (Engine::Init is all-or-nothing per section 6 of the
spec). -/
structure Modules where
  dataVersion : String
  posList : List String
  spellchecker : Option Nat
  valid : Bool
deriving DecidableEq, Repr

/-- A converter object: either the converter_ built from a bundle by
Engine::Init, or the MinimalEngine's converter. -/
inductive ConverterObj where
  | fromModules (m : Modules) (f : Flavor)
  | minimal
deriving DecidableEq, Repr

/-- A suppression dictionary object: modules_'s mutable suppression
dictionary, or the MinimalEngine's one. -/
inductive SuppressionDictionaryObj where
  | ofModules (m : Modules)
  | minimal
deriving DecidableEq, Repr

/-- A data manager object: modules_'s data manager, or the MinimalEngine's
one. -/
inductive DataManagerObj where
  | ofModules (m : Modules)
  | minimal
deriving DecidableEq, Repr

/-- A user data manager object: the user_data_manager_ built by
Engine::Init, or the MinimalEngine's one. -/
inductive UserDataManagerObj where
  | ofModules (m : Modules)
  | minimal
deriving DecidableEq, Repr

/-- A predictor object, identified by its GetPredictorName answer. -/
structure PredictorObj where
  name : String
deriving DecidableEq, Repr

/-- Modelled from the spec: the predictor Engine::Init wires in is selected
by the flavor flag alone (DefaultPredictor for desktop, MobilePredictor for
mobile; engine.h:62-65). -/
def predictorOfFlavor : Flavor → PredictorObj
  | Flavor.desktop => { name := "DefaultPredictor" }
  | Flavor.mobile => { name := "MobilePredictor" }

/-- Modelled from the spec: MinimalEngine (minimal_engine.cc is not among
the sources) is stateless and answers every accessor with a degenerate but
valid value (spec section 4.3). -/
def minimalPredictorName : String := ""

/-- Modelled from the spec: MinimalEngine's data version (degenerate
constant). -/
def minimalDataVersion : String := ""

/-- Modelled from the spec: MinimalEngine's POS list (degenerate
constant). -/
def minimalPosList : List String := []

/-- The mutable state of mozc::Engine (engine.h:163-192).  Option models
the nullable unique_ptr members; storedRequest is the accepted reload
request together with the generation id assigned to it at request time,
and pendingFuture is loader_response_future_, the handle of the in-flight
background build with the generation id its response will carry. -/
structure Engine where
  initialized : Bool
  modules : Option Modules
  converter : Option ConverterObj
  predictor : Option PredictorObj
  userDataManager : Option UserDataManagerObj
  latestDataId : Nat
  currentDataId : Nat
  storedRequest : Option (ReloadRequest × Nat)
  pendingFuture : Option (ReloadRequest × Nat)
deriving DecidableEq, Repr

/-- The engine as created by Engine::CreateEngine() with no initialization:
fallback mode, no modules, both generation counters zero, nothing stored
or in flight (spec section 3: the controller starts in Fallback with no
SubsystemSet). -/
def engine0 : Engine where
  initialized := false
  modules := none
  converter := none
  predictor := none
  userDataManager := none
  latestDataId := 0
  currentDataId := 0
  storedRequest := none
  pendingFuture := none

/-- Embedding of Engine::GetConverter (engine.h:101-103). -/
def GetConverter (s : Engine) : Option ConverterObj :=
  if s.initialized then s.converter else some ConverterObj.minimal

/-- Embedding of Engine::GetPredictorName (engine.h:104-110): with the
engine initialized, a null predictor_ answers the empty string view. -/
def GetPredictorName (s : Engine) : String :=
  if s.initialized then
    match s.predictor with
    | some p => p.name
    | none => ""
  else minimalPredictorName

/-- Embedding of Engine::GetSuppressionDictionary (engine.h:111-114). -/
def GetSuppressionDictionary (s : Engine) : Option SuppressionDictionaryObj :=
  if s.initialized then s.modules.map SuppressionDictionaryObj.ofModules
  else some SuppressionDictionaryObj.minimal

/-- Embedding of Engine::GetUserDataManager (engine.h:123-126). -/
def GetUserDataManager (s : Engine) : Option UserDataManagerObj :=
  if s.initialized then s.userDataManager
  else some UserDataManagerObj.minimal

/-- Embedding of Engine::GetDataManager (engine.h:132-135). -/
def GetDataManager (s : Engine) : Option DataManagerObj :=
  if s.initialized then s.modules.map DataManagerObj.ofModules
  else some DataManagerObj.minimal

/-- GetDataVersion of a data manager object; the minimal engine's data
manager answers the degenerate constant. -/
def dataManagerVersion : DataManagerObj → String
  | DataManagerObj.ofModules m => m.dataVersion
  | DataManagerObj.minimal => minimalDataVersion

/-- Embedding of Engine::GetDataVersion (engine.h:128-130): dereference of
the GetDataManager result. -/
def GetDataVersion (s : Engine) : Option String :=
  (GetDataManager s).map dataManagerVersion

/-- Embedding of Engine::GetPosList (engine.h:137-140). -/
def GetPosList (s : Engine) : Option (List String) :=
  if s.initialized then s.modules.map (fun m => m.posList)
  else some minimalPosList

/-- Embedding of Engine::SetSpellchecker (engine.h:142-145): it
dereferences modules_ unconditionally, with no initialized_ guard and no
fallback to minimal_engine_; none models the null-pointer dereference when
no modules have ever been installed. -/
def SetSpellchecker (s : Engine) (sp : Option Nat) : Option Engine :=
  match s.modules with
  | none => none
  | some m => some { s with modules := some { m with spellchecker := sp } }

/-- Modelled from the spec: Engine::Init (engine.cc is not among the
sources).  Initializes the engine from the given modules and flavor,
building converter, predictor and user data manager from the bundle as one
all-or-nothing unit (spec sections 4.1 step 3 and 6); on an invalid bundle
it fails and produces nothing.  It does not touch the generation
counters. -/
def Init (s : Engine) (m : Modules) (f : Flavor) : Option Engine :=
  if m.valid then
    some { s with
      initialized := true
      modules := some m
      converter := some (ConverterObj.fromModules m f)
      predictor := some (predictorOfFlavor f)
      userDataManager := some (UserDataManagerObj.ofModules m) }
  else none

/-- EngineReloadResponse together with the DataLoader response content, as
the spec describes the wire shape: generation id, success flag, the built
bundle, and the flavor the request asked for. -/
structure ReloadResponse where
  id : Nat
  ok : Bool
  modules : Modules
  flavor : Flavor
deriving DecidableEq, Repr

/-- Modelled from the spec: Engine::MaybeReloadEngine (engine.cc is not
among the sources).  The promotion algorithm of spec section 4.1, executed
once per reaped response: a response whose id is below latest_data_id_ is
a stale superseded build and is discarded; a failed status is discarded;
otherwise the new generation is constructed via Init and promoted, setting
current_data_id_ to the response's id in the same step.  Returns whether
the active generation changed, with the resulting engine state. -/
def maybeReloadEngine (s : Engine) (resp : ReloadResponse) : Bool × Engine :=
  if resp.id < s.latestDataId then (false, s)
  else if !resp.ok then (false, s)
  else
    match Init s resp.modules resp.flavor with
    | none => (false, s)
    | some s2 => (true, { s2 with currentDataId := resp.id })

/-- Modelled from the spec: Engine::SendEngineReloadRequest (engine.cc is
not among the sources).  Spec section 4.1: validate the request
superficially (non-empty target), and if accepted increment latest_id and
store the request for a later background build; a malformed request is
rejected synchronously and consumes no generation id.  It builds
nothing itself. -/
def SendEngineReloadRequest (s : Engine) (r : ReloadRequest) : Bool × Engine :=
  if r.target = "" then (false, s)
  else
    (true, { s with
      latestDataId := s.latestDataId + 1
      storedRequest := some (r, s.latestDataId + 1) })

/-- Modelled from the spec: Engine::MaybeBuildDataLoader (engine.cc is not
among the sources).  Spec section 4.1: if a request is pending and no
build is currently in flight, start the Loader asynchronously for the
latest request and report that a build was started; otherwise a no-op. -/
def MaybeBuildDataLoader (s : Engine) : Bool × Engine :=
  match s.storedRequest, s.pendingFuture with
  | some ri, none =>
    (true, { s with pendingFuture := some ri, storedRequest := none })
  | some _, some _ => (false, s)
  | none, _ => (false, s)

/-- Modelled from the spec: Engine::ReloadModules (engine.cc is not among
the sources).  Spec section 4.1: the synchronous variant that swaps in an
already-built bundle; it fails on invalid modules, leaving the current
state untouched, and does not touch the generation counters.  The Bool is
the absl::Status collapsed to ok / not ok. -/
def ReloadModules (s : Engine) (m : Modules) (f : Flavor) : Bool × Engine :=
  match Init s m f with
  | none => (false, s)
  | some s2 => (true, s2)

/-- One externally observable action on the reload controller: accept a
request, opportunistically start the background build, reap a completed
build (the environment chooses whether the build succeeded and which
bundle it produced), or synchronously inject a pre-built bundle. -/
inductive Event where
  | send (r : ReloadRequest)
  | build
  | reap (ok : Bool) (m : Modules)
  | reloadMods (m : Modules) (f : Flavor)
deriving DecidableEq, Repr

/-- One step of the controller.  A reap with no build in flight is
GetDataLoaderResponse answering nothing, hence a no-op; otherwise the
future is consumed exactly once (spec section 3: ReloadResponse is
consumed exactly once) and its response, tagged with the generation id
assigned at request time, is handed to maybeReloadEngine. -/
def step (s : Engine) : Event → Engine
  | Event.send r => (SendEngineReloadRequest s r).2
  | Event.build => (MaybeBuildDataLoader s).2
  | Event.reap ok m =>
    match s.pendingFuture with
    | none => s
    | some (r, i) =>
      (maybeReloadEngine { s with pendingFuture := none }
        { id := i, ok := ok, modules := m, flavor := r.flavor }).2
  | Event.reloadMods m f => (ReloadModules s m f).2

/-- The engine state after a sequence of actions, starting from the
never-initialized engine. -/
def run (evs : List Event) : Engine := evs.foldl step engine0

/-- Coherence of one served generation: a single valid bundle from which
the converter, the predictor and the user data manager were all built. -/
def coherentGen (mo : Option Modules) (co : Option ConverterObj)
    (pr : Option PredictorObj) (ud : Option UserDataManagerObj) : Prop :=
  ∃ m f, m.valid = true ∧ mo = some m ∧
    co = some (ConverterObj.fromModules m f) ∧
    pr = some (predictorOfFlavor f) ∧
    ud = some (UserDataManagerObj.ofModules m)

/-- The inductive invariant of the reload controller: the generation
counters are ordered, every id handed to a request is bounded by
latest_data_id_, and an initialized engine holds a coherent generation,
while a never-initialized engine holds no bundle and has current_data_id_
still zero. -/
def Inv (s : Engine) : Prop :=
  s.currentDataId ≤ s.latestDataId ∧
  (∀ r i, s.storedRequest = some (r, i) → i ≤ s.latestDataId) ∧
  (∀ r i, s.pendingFuture = some (r, i) → i ≤ s.latestDataId) ∧
  (s.initialized = true →
    coherentGen s.modules s.converter s.predictor s.userDataManager) ∧
  (s.initialized = false → s.modules = none ∧ s.currentDataId = 0)

/-! ## Concrete sample data used by witnesses and counterexamples -/

/-- A valid sample bundle. -/
def modA : Modules where
  dataVersion := "24.20240101.01"
  posList := ["noun", "verb"]
  spellchecker := none
  valid := true

/-- An invalid sample bundle. -/
def modBad : Modules where
  dataVersion := ""
  posList := []
  spellchecker := none
  valid := false

/-- A well-formed sample request. -/
def reqA : ReloadRequest where
  target := "mozc.data"
  flavor := Flavor.desktop

/-- A second well-formed sample request. -/
def reqB : ReloadRequest where
  target := "mozc2.data"
  flavor := Flavor.mobile

/-- A run that promotes one generation: request accepted, build started,
successful response reaped. -/
def evsPromote : List Event := [Event.send reqA, Event.build, Event.reap true modA]

/-- A run that leaves a stale build in flight: request accepted, build
started, then a second request supersedes it before the reap. -/
def evsStale : List Event := [Event.send reqA, Event.build, Event.send reqB]

/-- A run that stops with one build in flight, ready to be reaped. -/
def evsBuilt : List Event := [Event.send reqA, Event.build]

/-! ## Helper lemmas -/

theorem operatorMap_not_INTEGER (c : Char) (t : TokenType)
    (h : operatorMap c = some t) : t ≠ TokenType.INTEGER := by
  intro hEq
  subst hEq
  unfold operatorMap at h
  split_ifs at h <;> simp_all

theorem tokenizeLoop_counts (fuel : Nat) :
    ∀ (cs : List Char) (acc : List Token) (nv nop : Nat)
      (toks : List Token) (nv2 nop2 : Nat),
      tokenizeLoop fuel cs acc nv nop = some (toks, nv2, nop2) →
      countIntTokens toks + nv = countIntTokens acc + nv2 ∧
      countOpTokens toks + nop = countOpTokens acc + nop2 := by
  induction fuel with
  | zero =>
    intro cs acc nv nop toks nv2 nop2 h
    cases cs with
    | nil =>
      simp [tokenizeLoop] at h
      obtain ⟨rfl, rfl, rfl⟩ := h
      omega
    | cons c cs2 => simp [tokenizeLoop] at h
  | succ fuel ih =>
    intro cs acc nv nop toks nv2 nop2 h
    cases cs with
    | nil =>
      simp [tokenizeLoop] at h
      obtain ⟨rfl, rfl, rfl⟩ := h
      omega
    | cons c cs2 =>
      simp only [tokenizeLoop] at h
      by_cases hnum :
          List.takeWhile isNumChar (List.dropWhile isSpaceChar (c :: cs2)) = []
      · rw [if_pos hnum] at h
        cases hcs1 : List.dropWhile isSpaceChar (c :: cs2) with
        | nil => rw [hcs1] at h; cases h
        | cons d ds =>
          rw [hcs1] at h
          dsimp only at h
          cases hop : operatorMap d with
          | none => rw [hop] at h; cases h
          | some t =>
            rw [hop] at h
            dsimp only at h
            have hrec := ih ds (acc ++ [((t, [d]) : Token)]) nv
              (if t = TokenType.LP || t = TokenType.RP then nop else nop + 1)
              toks nv2 nop2 h
            have hne := operatorMap_not_INTEGER d t hop
            by_cases hpar : (t = TokenType.LP || t = TokenType.RP) = true
            · rw [if_pos hpar] at hrec
              rcases Bool.or_eq_true_iff.mp hpar with hp | hp <;>
                [skip; skip] <;>
                (simp only [decide_eq_true_eq] at hp; subst hp;
                  simp [countIntTokens, countOpTokens, List.countP_append,
                    List.countP_cons] at hrec ⊢; omega)
            · rw [if_neg hpar] at hrec
              have hlp : t ≠ TokenType.LP := by
                intro hx; apply hpar; subst hx; simp
              have hrp : t ≠ TokenType.RP := by
                intro hx; apply hpar; subst hx; simp
              simp [countIntTokens, countOpTokens, List.countP_append,
                List.countP_cons, hne, hlp, hrp] at hrec ⊢
              omega
      · rw [if_neg hnum] at h
        by_cases hsafe : safeStrToDoubleOk
            (List.takeWhile isNumChar (List.dropWhile isSpaceChar (c :: cs2)))
            = true
        · rw [if_pos hsafe] at h
          have hrec := ih _ _ _ _ _ _ _ h
          simp [countIntTokens, countOpTokens, List.countP_append,
            List.countP_cons] at hrec ⊢
          omega
        · rw [if_neg hsafe] at h
          cases h

theorem tokenizeLoop_no_op (fuel : Nat) :
    ∀ (cs : List Char) (acc : List Token) (nv nop : Nat)
      (toks : List Token) (nv2 nop2 : Nat),
      (∀ c ∈ cs, isNonParenOpChar c = false) →
      tokenizeLoop fuel cs acc nv nop = some (toks, nv2, nop2) →
      nop2 = nop := by
  induction fuel with
  | zero =>
    intro cs acc nv nop toks nv2 nop2 hall h
    cases cs with
    | nil =>
      simp [tokenizeLoop] at h
      obtain ⟨rfl, rfl, rfl⟩ := h
      rfl
    | cons c cs2 => simp [tokenizeLoop] at h
  | succ fuel ih =>
    intro cs acc nv nop toks nv2 nop2 hall h
    cases cs with
    | nil =>
      simp [tokenizeLoop] at h
      obtain ⟨rfl, rfl, rfl⟩ := h
      rfl
    | cons c cs2 =>
      have hsub1 : List.Sublist (List.dropWhile isSpaceChar (c :: cs2))
          (c :: cs2) :=
        List.dropWhile_sublist isSpaceChar
      simp only [tokenizeLoop] at h
      by_cases hnum :
          List.takeWhile isNumChar (List.dropWhile isSpaceChar (c :: cs2)) = []
      · rw [if_pos hnum] at h
        cases hcs1 : List.dropWhile isSpaceChar (c :: cs2) with
        | nil => rw [hcs1] at h; cases h
        | cons d ds =>
          rw [hcs1] at h
          dsimp only at h
          cases hop : operatorMap d with
          | none => rw [hop] at h; cases h
          | some t =>
            rw [hop] at h
            dsimp only at h
            have hdmem : d ∈ c :: cs2 := by
              have : d ∈ List.dropWhile isSpaceChar (c :: cs2) := by
                rw [hcs1]; exact List.mem_cons_self d ds
              exact hsub1.subset this
            have hpar : (t = TokenType.LP || t = TokenType.RP) = true := by
              have hd := hall d hdmem
              unfold isNonParenOpChar at hd
              rw [hop] at hd
              cases t <;> simp_all
            rw [if_pos hpar] at h
            have hallds : ∀ x ∈ ds, isNonParenOpChar x = false := by
              intro x hx
              apply hall
              apply hsub1.subset
              rw [hcs1]
              exact List.mem_cons_of_mem d hx
            exact ih ds _ nv nop toks nv2 nop2 hallds h
      · rw [if_neg hnum] at h
        by_cases hsafe : safeStrToDoubleOk
            (List.takeWhile isNumChar (List.dropWhile isSpaceChar (c :: cs2)))
            = true
        · rw [if_pos hsafe] at h
          have hsub2 : List.Sublist
              ((List.dropWhile isSpaceChar (c :: cs2)).drop
                (List.takeWhile isNumChar
                  (List.dropWhile isSpaceChar (c :: cs2))).length)
              (c :: cs2) :=
            (List.drop_sublist _ _).trans hsub1
          have hallrest : ∀ x ∈ (List.dropWhile isSpaceChar (c :: cs2)).drop
              (List.takeWhile isNumChar
                (List.dropWhile isSpaceChar (c :: cs2))).length,
              isNonParenOpChar x = false := by
            intro x hx
            exact hall x (hsub2.subset hx)
          exact ih _ _ (nv + 1) nop toks nv2 nop2 hallrest h
        · rw [if_neg hsafe] at h
          cases h

theorem tokenizeLoop_no_num (fuel : Nat) :
    ∀ (cs : List Char) (acc : List Token) (nv nop : Nat)
      (toks : List Token) (nv2 nop2 : Nat),
      (∀ c ∈ cs, isNumChar c = false) →
      tokenizeLoop fuel cs acc nv nop = some (toks, nv2, nop2) →
      nv2 = nv := by
  induction fuel with
  | zero =>
    intro cs acc nv nop toks nv2 nop2 hall h
    cases cs with
    | nil =>
      simp [tokenizeLoop] at h
      obtain ⟨rfl, rfl, rfl⟩ := h
      rfl
    | cons c cs2 => simp [tokenizeLoop] at h
  | succ fuel ih =>
    intro cs acc nv nop toks nv2 nop2 hall h
    cases cs with
    | nil =>
      simp [tokenizeLoop] at h
      obtain ⟨rfl, rfl, rfl⟩ := h
      rfl
    | cons c cs2 =>
      have hsub1 : List.Sublist (List.dropWhile isSpaceChar (c :: cs2))
          (c :: cs2) :=
        List.dropWhile_sublist isSpaceChar
      simp only [tokenizeLoop] at h
      by_cases hnum :
          List.takeWhile isNumChar (List.dropWhile isSpaceChar (c :: cs2)) = []
      · rw [if_pos hnum] at h
        cases hcs1 : List.dropWhile isSpaceChar (c :: cs2) with
        | nil => rw [hcs1] at h; cases h
        | cons d ds =>
          rw [hcs1] at h
          dsimp only at h
          cases hop : operatorMap d with
          | none => rw [hop] at h; cases h
          | some t =>
            rw [hop] at h
            dsimp only at h
            have hallds : ∀ x ∈ ds, isNumChar x = false := by
              intro x hx
              apply hall
              apply hsub1.subset
              rw [hcs1]
              exact List.mem_cons_of_mem d hx
            exact ih ds _ nv _ toks nv2 nop2 hallds h
      · exfalso
        cases hcs1 : List.takeWhile isNumChar
            (List.dropWhile isSpaceChar (c :: cs2)) with
        | nil => exact hnum hcs1
        | cons d ds =>
          have hdnum : isNumChar d = true := by
            have : d ∈ List.takeWhile isNumChar
                (List.dropWhile isSpaceChar (c :: cs2)) := by
              rw [hcs1]; exact List.mem_cons_self d ds
            exact List.mem_takeWhile_imp this
          have hdmem : d ∈ c :: cs2 := by
            have : d ∈ List.takeWhile isNumChar
                (List.dropWhile isSpaceChar (c :: cs2)) := by
              rw [hcs1]; exact List.mem_cons_self d ds
            exact hsub1.subset ((List.takeWhile_sublist _).subset this)
          rw [hall d hdmem] at hdnum
          cases hdnum

theorem Tokenize_some_counts (body : List Char) (toks : List Token)
    (h : Tokenize body = some toks) :
    1 ≤ countIntTokens toks ∧ 1 ≤ countOpTokens toks := by
  unfold Tokenize at h
  cases hl : tokenizeLoop (body.length + 1) body [] 0 0 with
  | none => rw [hl] at h; cases h
  | some out =>
    obtain ⟨toks2, nv, nop⟩ := out
    rw [hl] at h
    dsimp only at h
    by_cases hz : (nv = 0 || nop = 0) = true
    · rw [if_pos hz] at h; cases h
    · rw [if_neg hz] at h
      cases h
      have hc := tokenizeLoop_counts (body.length + 1) body [] 0 0 toks nv nop hl
      have h0 : countIntTokens ([] : List Token) = 0 := rfl
      have h1 : countOpTokens ([] : List Token) = 0 := rfl
      simp only [Bool.or_eq_true, decide_eq_true_eq, not_or] at hz
      omega

theorem Tokenize_no_op_none (body : List Char)
    (h : ∀ c ∈ body, isNonParenOpChar c = false) : Tokenize body = none := by
  unfold Tokenize
  cases hl : tokenizeLoop (body.length + 1) body [] 0 0 with
  | none => rfl
  | some out =>
    obtain ⟨toks, nv, nop⟩ := out
    have hz := tokenizeLoop_no_op (body.length + 1) body [] 0 0 toks nv nop h hl
    simp [hz]

theorem Tokenize_no_num_none (body : List Char)
    (h : ∀ c ∈ body, isNumChar c = false) : Tokenize body = none := by
  unfold Tokenize
  cases hl : tokenizeLoop (body.length + 1) body [] 0 0 with
  | none => rfl
  | some out =>
    obtain ⟨toks, nv, nop⟩ := out
    have hz := tokenizeLoop_no_num (body.length + 1) body [] 0 0 toks nv nop h hl
    simp [hz]

theorem calculateBody_of_tokenize_none
    (calcFn : List Token → Option (List Char)) (body : List Char)
    (h : Tokenize body = none) : calculateBody calcFn body = (false, []) := by
  unfold calculateBody
  rw [h]

theorem norm_cons (c : Char) (l : List Char) :
    fullWidthAsciiToHalfWidthAscii (c :: l)
      = normalizeChar c :: fullWidthAsciiToHalfWidthAscii l := rfl

theorem norm_nil_iff (l : List Char) :
    fullWidthAsciiToHalfWidthAscii l = [] ↔ l = [] := by
  cases l with
  | nil => simp [fullWidthAsciiToHalfWidthAscii]
  | cons c l2 => simp [norm_cons]

theorem CalculateString_leading (calcFn : List Token → Option (List Char))
    (body res0 : List Char) :
    CalculateString calcFn ('=' :: body) res0
      = calculateBody calcFn (fullWidthAsciiToHalfWidthAscii body) := by
  unfold CalculateString
  rw [if_neg (by simp : ¬('=' :: body = []))]
  rw [norm_cons]
  rw [if_pos (by rfl :
    (normalizeChar '=' :: fullWidthAsciiToHalfWidthAscii body).head?
      = some '=')]
  rfl

theorem CalculateString_trailing (calcFn : List Token → Option (List Char))
    (body res0 : List Char)
    (hhead : (fullWidthAsciiToHalfWidthAscii body).head? ≠ some '=') :
    CalculateString calcFn (body ++ ['=']) res0
      = calculateBody calcFn (fullWidthAsciiToHalfWidthAscii body) := by
  cases body with
  | nil => rfl
  | cons b bs =>
    unfold CalculateString
    rw [if_neg (by simp : ¬((b :: bs) ++ ['=']) = [])]
    have hnorm : fullWidthAsciiToHalfWidthAscii ((b :: bs) ++ ['='])
        = fullWidthAsciiToHalfWidthAscii (b :: bs) ++ ['='] := by
      show List.map normalizeChar ((b :: bs) ++ ['='])
        = List.map normalizeChar (b :: bs) ++ ['=']
      rw [List.map_append]
      rfl
    rw [hnorm]
    have hh : (fullWidthAsciiToHalfWidthAscii (b :: bs) ++ ['=']).head?
        = (fullWidthAsciiToHalfWidthAscii (b :: bs)).head? := by
      rw [norm_cons]
      rfl
    rw [if_neg (by rw [hh]; exact hhead)]
    rw [if_pos (List.getLast?_concat _)]
    rw [List.dropLast_concat]

theorem inv_engine0 : Inv engine0 := by
  simp [Inv, engine0]

theorem step_inv (s : Engine) (e : Event) (h : Inv s) : Inv (step s e) := by
  obtain ⟨h1, h2, h3, h4, h5⟩ := h
  cases e with
  | send r =>
    by_cases ht : r.target = ""
    · simpa [step, SendEngineReloadRequest, ht] using ⟨h1, h2, h3, h4, h5⟩
    · simp only [step, SendEngineReloadRequest, if_neg ht]
      refine ⟨?_, ?_, ?_, ?_, ?_⟩
      · show s.currentDataId ≤ s.latestDataId + 1
        omega
      · intro r0 i h0
        have h0 : some (r, s.latestDataId + 1) = some (r0, i) := h0
        show i ≤ s.latestDataId + 1
        cases h0
        exact Nat.le_refl _
      · intro r0 i h0
        have h0 : s.pendingFuture = some (r0, i) := h0
        show i ≤ s.latestDataId + 1
        exact Nat.le_succ_of_le (h3 r0 i h0)
      · exact h4
      · intro h0
        exact ⟨(h5 h0).1, (h5 h0).2⟩
  | build =>
    rcases hst : s.storedRequest with _ | ⟨⟨r, i⟩⟩ <;>
      rcases hpf : s.pendingFuture with _ | ⟨⟨r2, i2⟩⟩
    · simpa [step, MaybeBuildDataLoader, hst, hpf] using ⟨h1, h2, h3, h4, h5⟩
    · simpa [step, MaybeBuildDataLoader, hst, hpf] using ⟨h1, h2, h3, h4, h5⟩
    · simp only [step, MaybeBuildDataLoader, hst, hpf]
      refine ⟨h1, ?_, ?_, h4, h5⟩
      · intro r0 i0 h0
        have h0 : (none : Option (ReloadRequest × Nat)) = some (r0, i0) := h0
        cases h0
      · intro r0 i0 h0
        have h0 : some (r, i) = some (r0, i0) := h0
        cases h0
        exact h2 r i hst
    · simpa [step, MaybeBuildDataLoader, hst, hpf] using ⟨h1, h2, h3, h4, h5⟩
  | reap ok m =>
    rcases hpf : s.pendingFuture with _ | ⟨⟨r, i⟩⟩
    · simpa [step, hpf] using ⟨h1, h2, h3, h4, h5⟩
    · have hi : i ≤ s.latestDataId := h3 r i hpf
      simp only [step, hpf]
      by_cases hstale : i < s.latestDataId
      · simp only [maybeReloadEngine, if_pos hstale]
        refine ⟨h1, h2, ?_, h4, h5⟩
        intro r0 i0 h0
        have h0 : (none : Option (ReloadRequest × Nat)) = some (r0, i0) := h0
        cases h0
      · cases ok with
        | false =>
          simp only [maybeReloadEngine, if_neg hstale, Bool.not_false, if_pos rfl]
          refine ⟨h1, h2, ?_, h4, h5⟩
          intro r0 i0 h0
          have h0 : (none : Option (ReloadRequest × Nat)) = some (r0, i0) := h0
          cases h0
        | true =>
          simp only [maybeReloadEngine, if_neg hstale, Bool.not_true,
            if_neg (by simp : ¬(false = true))]
          cases hval : m.valid with
          | false =>
            simp only [Init, hval, if_neg (by simp : ¬(false = true))]
            refine ⟨h1, h2, ?_, h4, h5⟩
            intro r0 i0 h0
            have h0 : (none : Option (ReloadRequest × Nat)) = some (r0, i0) := h0
            cases h0
          | true =>
            simp only [Init, hval, if_pos rfl]
            refine ⟨hi, h2, ?_, ?_, ?_⟩
            · intro r0 i0 h0
              have h0 : (none : Option (ReloadRequest × Nat)) = some (r0, i0) := h0
              cases h0
            · intro _
              exact ⟨m, r.flavor, hval, rfl, rfl, rfl, rfl⟩
            · intro h0
              exact absurd h0 (by simp)
  | reloadMods m f =>
    cases hval : m.valid with
    | false =>
      simpa [step, ReloadModules, Init, hval] using ⟨h1, h2, h3, h4, h5⟩
    | true =>
      simp only [step, ReloadModules, Init, hval, if_pos rfl]
      refine ⟨h1, h2, h3, ?_, ?_⟩
      · intro _
        exact ⟨m, f, hval, rfl, rfl, rfl, rfl⟩
      · intro h0
        exact absurd h0 (by simp)

theorem foldl_inv (evs : List Event) :
    ∀ s : Engine, Inv s → Inv (evs.foldl step s) := by
  induction evs with
  | nil => intro s h; exact h
  | cons e evs ih => intro s h; exact ih (step s e) (step_inv s e h)

theorem run_inv (evs : List Event) : Inv (run evs) :=
  foldl_inv evs engine0 inv_engine0

theorem step_currentId_mono (s : Engine) (e : Event) (h : Inv s) :
    s.currentDataId ≤ (step s e).currentDataId := by
  obtain ⟨h1, h2, h3, h4, h5⟩ := h
  cases e with
  | send r =>
    by_cases ht : r.target = ""
    · simp [step, SendEngineReloadRequest, ht]
    · simp [step, SendEngineReloadRequest, ht]
  | build =>
    rcases hst : s.storedRequest with _ | ⟨⟨r, i⟩⟩ <;>
      rcases hpf : s.pendingFuture with _ | ⟨⟨r2, i2⟩⟩ <;>
      simp [step, MaybeBuildDataLoader, hst, hpf]
  | reap ok m =>
    rcases hpf : s.pendingFuture with _ | ⟨⟨r, i⟩⟩
    · simp [step, hpf]
    · simp only [step, hpf]
      by_cases hstale : i < s.latestDataId
      · simp [maybeReloadEngine, if_pos hstale]
      · cases ok with
        | false => simp [maybeReloadEngine, if_neg hstale]
        | true =>
          cases hval : m.valid with
          | false => simp [maybeReloadEngine, if_neg hstale, Init, hval]
          | true =>
            simp only [maybeReloadEngine, if_neg hstale, Bool.not_true,
              if_neg (by simp : ¬(false = true)), Init, hval, if_pos rfl]
            show s.currentDataId ≤ i
            omega
  | reloadMods m f =>
    cases hval : m.valid with
    | false => simp [step, ReloadModules, Init, hval]
    | true => simp [step, ReloadModules, Init, hval]

theorem step_currentId_change (s : Engine) (e : Event)
    (h : (step s e).currentDataId ≠ s.currentDataId) :
    ∃ ok m r i, e = Event.reap ok m ∧ s.pendingFuture = some (r, i) ∧
      (step s e).currentDataId = i ∧ (step s e).pendingFuture = none ∧
      (step s e).initialized = true ∧ (step s e).modules = some m ∧
      (step s e).converter = some (ConverterObj.fromModules m r.flavor) := by
  cases e with
  | send r =>
    exfalso
    apply h
    by_cases ht : r.target = ""
    · simp [step, SendEngineReloadRequest, ht]
    · simp [step, SendEngineReloadRequest, ht]
  | build =>
    exfalso
    apply h
    rcases hst : s.storedRequest with _ | ⟨⟨r, i⟩⟩ <;>
      rcases hpf : s.pendingFuture with _ | ⟨⟨r2, i2⟩⟩ <;>
      simp [step, MaybeBuildDataLoader, hst, hpf]
  | reloadMods m f =>
    exfalso
    apply h
    cases hval : m.valid with
    | false => simp [step, ReloadModules, Init, hval]
    | true => simp [step, ReloadModules, Init, hval]
  | reap ok m =>
    rcases hpf : s.pendingFuture with _ | ⟨⟨r, i⟩⟩
    · exact absurd (by simp [step, hpf]) h
    · by_cases hstale : i < s.latestDataId
      · exact absurd (by simp [step, hpf, maybeReloadEngine, if_pos hstale]) h
      · cases ok with
        | false =>
          exact absurd (by simp [step, hpf, maybeReloadEngine, if_neg hstale]) h
        | true =>
          cases hval : m.valid with
          | false =>
            exact absurd
              (by simp [step, hpf, maybeReloadEngine, if_neg hstale, Init, hval]) h
          | true =>
            refine ⟨true, m, r, i, rfl, rfl, ?_, ?_, ?_, ?_, ?_⟩ <;>
              simp [step, hpf, maybeReloadEngine, if_neg hstale, Init, hval]

/-! ## Claims -/

/-- Claim C1: a completed load response reaped by MaybeReloadEngine whose
generation id is below latest_data_id_ at reap time is discarded:
MaybeReloadEngine returns false and neither the active generation (modules
and converter) nor current_data_id_ changes.  The first conjunct states it
for every engine state and response; the second states it along every
interleaving of requests, build starts and reaps. -/
theorem c1_stale_response_discarded :
    (∀ (s : Engine) (resp : ReloadResponse), resp.id < s.latestDataId →
      maybeReloadEngine s resp = (false, s)) ∧
    (∀ (evs : List Event) (ok : Bool) (m : Modules) (r : ReloadRequest) (i : Nat),
      (run evs).pendingFuture = some (r, i) → i < (run evs).latestDataId →
      (step (run evs) (Event.reap ok m)).currentDataId = (run evs).currentDataId ∧
      (step (run evs) (Event.reap ok m)).modules = (run evs).modules ∧
      (step (run evs) (Event.reap ok m)).converter = (run evs).converter ∧
      (step (run evs) (Event.reap ok m)).initialized = (run evs).initialized) := by
  constructor
  · intro s resp hlt
    simp [maybeReloadEngine, if_pos hlt]
  · intro evs ok m r i hpf hlt
    refine ⟨?_, ?_, ?_, ?_⟩ <;>
      simp [step, hpf, maybeReloadEngine, if_pos hlt]

/-- Witness for C1: a stale response (id 3 against latest id 5) is
discarded unchanged, and in the concrete superseded-build run evsStale the
reap of the stale build (id 1 against latest id 2) leaves
current_data_id_ untouched. -/
theorem c1_stale_response_discarded_witness :
    maybeReloadEngine { engine0 with latestDataId := 5 }
        { id := 3, ok := true, modules := modA, flavor := Flavor.desktop }
      = (false, { engine0 with latestDataId := 5 }) ∧
    (step (run evsStale) (Event.reap true modA)).currentDataId
      = (run evsStale).currentDataId :=
  ⟨c1_stale_response_discarded.1 { engine0 with latestDataId := 5 }
      { id := 3, ok := true, modules := modA, flavor := Flavor.desktop } (by decide),
    (c1_stale_response_discarded.2 evsStale true modA reqA 1
      (by decide) (by decide)).1⟩

/-- Claim C6: a failed load attempt changes nothing.  A response whose
status indicates failure makes MaybeReloadEngine return false with the
engine state unchanged, and invalid modules make ReloadModules return a
failure status with the engine state unchanged, so the previous generation
(or the fallback engine) keeps serving. -/
theorem c6_failed_load_leaves_state_unchanged :
    (∀ (s : Engine) (resp : ReloadResponse), resp.ok = false →
      maybeReloadEngine s resp = (false, s)) ∧
    (∀ (s : Engine) (m : Modules) (f : Flavor), m.valid = false →
      ReloadModules s m f = (false, s)) := by
  constructor
  · intro s resp hfail
    by_cases hstale : resp.id < s.latestDataId
    · simp [maybeReloadEngine, if_pos hstale]
    · simp [maybeReloadEngine, if_neg hstale, hfail]
  · intro s m f hval
    simp [ReloadModules, Init, hval]

/-- Witness for C6: a failed response and an invalid bundle, both applied
to an engine already serving generation 1, leave it unchanged. -/
theorem c6_failed_load_leaves_state_unchanged_witness :
    maybeReloadEngine (run evsPromote)
        { id := 1, ok := false, modules := modA, flavor := Flavor.desktop }
      = (false, run evsPromote) ∧
    ReloadModules (run evsPromote) modBad Flavor.desktop
      = (false, run evsPromote) :=
  ⟨c6_failed_load_leaves_state_unchanged.1 (run evsPromote)
      { id := 1, ok := false, modules := modA, flavor := Flavor.desktop } (by decide),
    c6_failed_load_leaves_state_unchanged.2 (run evsPromote) modBad
      Flavor.desktop (by decide)⟩

/-- Claim C7: SendEngineReloadRequest rejects every empty-target request,
returning false with the state unchanged (no generation id consumed, no
request stored); an accepted request increments latest_data_id_, stores
the request under the new id, and performs no build itself: the in-flight
future, the modules, the initialized flag and current_data_id_ are all
untouched. -/
theorem c7_send_request_contract :
    (∀ (s : Engine) (r : ReloadRequest), r.target = "" →
      SendEngineReloadRequest s r = (false, s)) ∧
    (∀ (s : Engine) (r : ReloadRequest), r.target ≠ "" →
      (SendEngineReloadRequest s r).1 = true ∧
      (SendEngineReloadRequest s r).2.latestDataId = s.latestDataId + 1 ∧
      (SendEngineReloadRequest s r).2.storedRequest
        = some (r, s.latestDataId + 1) ∧
      (SendEngineReloadRequest s r).2.pendingFuture = s.pendingFuture ∧
      (SendEngineReloadRequest s r).2.modules = s.modules ∧
      (SendEngineReloadRequest s r).2.converter = s.converter ∧
      (SendEngineReloadRequest s r).2.initialized = s.initialized ∧
      (SendEngineReloadRequest s r).2.currentDataId = s.currentDataId) := by
  constructor
  · intro s r ht
    simp [SendEngineReloadRequest, ht]
  · intro s r ht
    refine ⟨?_, ?_, ?_, ?_, ?_, ?_, ?_, ?_⟩ <;>
      simp [SendEngineReloadRequest, ht]

/-- Witness for C7: the empty-target request is rejected without consuming
an id, and a well-formed request on the fresh engine is accepted, takes
id 1, and builds nothing. -/
theorem c7_send_request_contract_witness :
    SendEngineReloadRequest engine0 { target := "", flavor := Flavor.desktop }
      = (false, engine0) ∧
    (SendEngineReloadRequest engine0 reqA).1 = true ∧
    (SendEngineReloadRequest engine0 reqA).2.latestDataId = 1 :=
  ⟨c7_send_request_contract.1 engine0
      { target := "", flavor := Flavor.desktop } (by decide),
    (c7_send_request_contract.2 engine0 reqA (by decide)).1,
    (c7_send_request_contract.2 engine0 reqA (by decide)).2.1⟩

/-- Claim C8: MaybeBuildDataLoader is idempotent.  If a call starts a
build, an immediately following call (no new request in between) starts
none; and with no pending request the call is a no-op that returns false
and leaves the state unchanged. -/
theorem c8_maybe_build_idempotent :
    (∀ s : Engine, (MaybeBuildDataLoader s).1 = true →
      (MaybeBuildDataLoader (MaybeBuildDataLoader s).2).1 = false) ∧
    (∀ s : Engine, s.storedRequest = none → MaybeBuildDataLoader s = (false, s)) := by
  constructor
  · intro s h
    rcases hst : s.storedRequest with _ | ⟨⟨r, i⟩⟩ <;>
      rcases hpf : s.pendingFuture with _ | ⟨⟨r2, i2⟩⟩ <;>
      simp [MaybeBuildDataLoader, hst, hpf] at h ⊢
  · intro s h
    rcases hpf : s.pendingFuture with _ | ⟨⟨r2, i2⟩⟩ <;>
      simp [MaybeBuildDataLoader, h, hpf]

/-- Witness for C8: after accepting one request, the first
MaybeBuildDataLoader starts the build and the second is a no-op; on the
fresh engine with nothing stored the call is a no-op. -/
theorem c8_maybe_build_idempotent_witness :
    (MaybeBuildDataLoader
        (MaybeBuildDataLoader (run [Event.send reqA])).2).1 = false ∧
    MaybeBuildDataLoader engine0 = (false, engine0) :=
  ⟨c8_maybe_build_idempotent.1 (run [Event.send reqA]) (by decide),
    c8_maybe_build_idempotent.2 engine0 (by decide)⟩

/-- Claim C3: along every sequence of requests and reaped responses,
latest_data_id_ bounds current_data_id_ in every state, current_data_id_
never decreases over a step, and it changes only at a reap, exactly to the
generation id of the response reaped there, and that response is consumed
by the same step (so each completed response can change it at most
once). -/
theorem c3_generation_counters :
    ∀ evs : List Event,
      (run evs).currentDataId ≤ (run evs).latestDataId ∧
      (∀ e, (run evs).currentDataId ≤ (step (run evs) e).currentDataId) ∧
      (∀ e, (step (run evs) e).currentDataId ≠ (run evs).currentDataId →
        ∃ ok m r i, e = Event.reap ok m ∧
          (run evs).pendingFuture = some (r, i) ∧
          (step (run evs) e).currentDataId = i ∧
          (step (run evs) e).pendingFuture = none) := by
  intro evs
  have hinv := run_inv evs
  refine ⟨hinv.1, ?_, ?_⟩
  · intro e
    exact step_currentId_mono (run evs) e hinv
  · intro e h
    obtain ⟨ok, m, r, i, he, hp, hc, hpn, _, _, _⟩ :=
      step_currentId_change (run evs) e h
    exact ⟨ok, m, r, i, he, hp, hc, hpn⟩

/-- Witness for C3: the counter invariant holds after the concrete
promoting run, and the reap that promotes generation 1 in the concrete
in-flight run changes current_data_id_ precisely to the reaped response's
id, consuming the future. -/
theorem c3_generation_counters_witness :
    (run evsPromote).currentDataId ≤ (run evsPromote).latestDataId ∧
    (∃ ok m r i, Event.reap true modA = Event.reap ok m ∧
      (run evsBuilt).pendingFuture = some (r, i) ∧
      (step (run evsBuilt) (Event.reap true modA)).currentDataId = i ∧
      (step (run evsBuilt) (Event.reap true modA)).pendingFuture = none) :=
  ⟨(c3_generation_counters evsPromote).1,
    (c3_generation_counters evsBuilt).2.2 (Event.reap true modA) (by decide)⟩

/-- Claim C2: promotion is a single step.  In every reachable state the
readers are consistent: an initialized engine serves one complete
generation (every accessor answers an object of the same installed
bundle), a never-initialized engine serves only fallback objects, no state
has current_data_id_ set while uninitialized, and whenever a step changes
current_data_id_, that same step installs the reaped response's bundle,
its converter and the initialized flag together — there is no observable
state in which current_data_id_ is updated but the active subsystem set is
not. -/
theorem c2_promotion_atomic :
    ∀ evs : List Event,
      ((run evs).initialized = true → ∃ m,
        (run evs).modules = some m ∧
        GetSuppressionDictionary (run evs)
          = some (SuppressionDictionaryObj.ofModules m) ∧
        GetDataManager (run evs) = some (DataManagerObj.ofModules m) ∧
        GetPosList (run evs) = some m.posList ∧
        ∃ f, GetConverter (run evs) = some (ConverterObj.fromModules m f)) ∧
      ((run evs).initialized = false →
        GetConverter (run evs) = some ConverterObj.minimal ∧
        GetSuppressionDictionary (run evs)
          = some SuppressionDictionaryObj.minimal ∧
        GetDataManager (run evs) = some DataManagerObj.minimal) ∧
      ((run evs).currentDataId ≠ 0 → (run evs).initialized = true) ∧
      (∀ e, (step (run evs) e).currentDataId ≠ (run evs).currentDataId →
        ∃ ok m r i, e = Event.reap ok m ∧
          (run evs).pendingFuture = some (r, i) ∧
          (step (run evs) e).currentDataId = i ∧
          (step (run evs) e).initialized = true ∧
          (step (run evs) e).modules = some m ∧
          (step (run evs) e).converter
            = some (ConverterObj.fromModules m r.flavor)) := by
  intro evs
  have hinv := run_inv evs
  obtain ⟨h1, h2, h3, h4, h5⟩ := hinv
  refine ⟨?_, ?_, ?_, ?_⟩
  · intro hinit
    obtain ⟨m, f, hval, hmo, hco, hpr, hud⟩ := h4 hinit
    refine ⟨m, hmo, ?_, ?_, ?_, f, ?_⟩ <;>
      simp [GetSuppressionDictionary, GetDataManager, GetPosList,
        GetConverter, hinit, hmo, hco]
  · intro hinit
    refine ⟨?_, ?_, ?_⟩ <;>
      simp [GetConverter, GetSuppressionDictionary, GetDataManager, hinit]
  · intro hc
    cases hinit : (run evs).initialized with
    | true => rfl
    | false => exact absurd (h5 hinit).2 hc
  · intro e h
    obtain ⟨ok, m, r, i, he, hp, hc, _, hin, hmo, hco⟩ :=
      step_currentId_change (run evs) e h
    exact ⟨ok, m, r, i, he, hp, hc, hin, hmo, hco⟩

/-- Witness for C2: the concrete promoting run ends initialized with every
accessor answering generation modA's objects, and the promoting reap on
the concrete in-flight run installs bundle, converter and the initialized
flag in the very step that sets current_data_id_. -/
theorem c2_promotion_atomic_witness :
    (∃ m, (run evsPromote).modules = some m ∧
      GetSuppressionDictionary (run evsPromote)
        = some (SuppressionDictionaryObj.ofModules m) ∧
      GetDataManager (run evsPromote) = some (DataManagerObj.ofModules m) ∧
      GetPosList (run evsPromote) = some m.posList ∧
      ∃ f, GetConverter (run evsPromote)
        = some (ConverterObj.fromModules m f)) ∧
    (∃ ok m r i, Event.reap true modA = Event.reap ok m ∧
      (run evsBuilt).pendingFuture = some (r, i) ∧
      (step (run evsBuilt) (Event.reap true modA)).currentDataId = i ∧
      (step (run evsBuilt) (Event.reap true modA)).initialized = true ∧
      (step (run evsBuilt) (Event.reap true modA)).modules = some m ∧
      (step (run evsBuilt) (Event.reap true modA)).converter
        = some (ConverterObj.fromModules m r.flavor)) :=
  ⟨(c2_promotion_atomic evsPromote).1 (by decide),
    (c2_promotion_atomic evsBuilt).2.2.2 (Event.reap true modA) (by decide)⟩

/-- Claim C4: in every reachable engine state, when the engine is
initialized every read accessor answers the active generation's object
(converter_, the bundle's suppression dictionary, user data manager, data
manager, its data version, the user dictionary's POS list, and the
flavor-selected predictor's name), and when it is not, every read accessor
answers the fallback MinimalEngine's equivalent. -/
theorem c4_accessors_follow_mode :
    ∀ evs : List Event,
      ((run evs).initialized = true → ∃ m f,
        (run evs).modules = some m ∧
        (run evs).converter = some (ConverterObj.fromModules m f) ∧
        GetConverter (run evs) = some (ConverterObj.fromModules m f) ∧
        GetSuppressionDictionary (run evs)
          = some (SuppressionDictionaryObj.ofModules m) ∧
        GetUserDataManager (run evs)
          = some (UserDataManagerObj.ofModules m) ∧
        GetDataManager (run evs) = some (DataManagerObj.ofModules m) ∧
        GetDataVersion (run evs) = some m.dataVersion ∧
        GetPosList (run evs) = some m.posList ∧
        GetPredictorName (run evs) = (predictorOfFlavor f).name) ∧
      ((run evs).initialized = false →
        GetConverter (run evs) = some ConverterObj.minimal ∧
        GetSuppressionDictionary (run evs)
          = some SuppressionDictionaryObj.minimal ∧
        GetUserDataManager (run evs) = some UserDataManagerObj.minimal ∧
        GetDataManager (run evs) = some DataManagerObj.minimal ∧
        GetDataVersion (run evs) = some minimalDataVersion ∧
        GetPosList (run evs) = some minimalPosList ∧
        GetPredictorName (run evs) = minimalPredictorName) := by
  intro evs
  obtain ⟨h1, h2, h3, h4, h5⟩ := run_inv evs
  constructor
  · intro hinit
    obtain ⟨m, f, hval, hmo, hco, hpr, hud⟩ := h4 hinit
    refine ⟨m, f, hmo, hco, ?_, ?_, ?_, ?_, ?_, ?_, ?_⟩ <;>
      simp [GetConverter, GetSuppressionDictionary, GetUserDataManager,
        GetDataManager, GetDataVersion, GetPosList, GetPredictorName,
        dataManagerVersion, hinit, hmo, hco, hpr, hud]
  · intro hinit
    refine ⟨?_, ?_, ?_, ?_, ?_, ?_, ?_⟩ <;>
      simp [GetConverter, GetSuppressionDictionary, GetUserDataManager,
        GetDataManager, GetDataVersion, GetPosList, GetPredictorName,
        dataManagerVersion, hinit]

/-- Witness for C4: on the concrete promoting run the accessors answer
modA-backed objects, and on the fresh engine they answer the fallback
objects. -/
theorem c4_accessors_follow_mode_witness :
    (∃ m f, (run evsPromote).modules = some m ∧
      (run evsPromote).converter = some (ConverterObj.fromModules m f) ∧
      GetConverter (run evsPromote) = some (ConverterObj.fromModules m f) ∧
      GetSuppressionDictionary (run evsPromote)
        = some (SuppressionDictionaryObj.ofModules m) ∧
      GetUserDataManager (run evsPromote)
        = some (UserDataManagerObj.ofModules m) ∧
      GetDataManager (run evsPromote) = some (DataManagerObj.ofModules m) ∧
      GetDataVersion (run evsPromote) = some m.dataVersion ∧
      GetPosList (run evsPromote) = some m.posList ∧
      GetPredictorName (run evsPromote) = (predictorOfFlavor f).name) ∧
    GetConverter (run []) = some ConverterObj.minimal :=
  ⟨(c4_accessors_follow_mode evsPromote).1 (by decide),
    ((c4_accessors_follow_mode []).2 (by decide)).1⟩

/-- Counterexample to claim C5 as stated: SetSpellchecker on the
never-initialized engine is not answered by the fallback engine — it
dereferences the absent modules_ object (a null unique_ptr), which the
embedding records as none. -/
theorem c5_counterexample_spellchecker_crashes :
    SetSpellchecker engine0 (some 7) = none := rfl

/-- Claim C5 amended: on a never-initialized engine every accessor that is
guarded by initialized_ (GetConverter, GetPredictorName,
GetSuppressionDictionary, GetUserDataManager, GetDataManager,
GetDataVersion, GetPosList) is answered by the fallback MinimalEngine, but
SetSpellchecker is not: it unconditionally dereferences the absent
modules_ object and fails. -/
theorem c5_amended_fallback_covers_accessors_not_spellchecker :
    ∀ (evs : List Event) (sp : Option Nat),
      (run evs).initialized = false →
      (GetConverter (run evs) = some ConverterObj.minimal ∧
        GetSuppressionDictionary (run evs)
          = some SuppressionDictionaryObj.minimal ∧
        GetUserDataManager (run evs) = some UserDataManagerObj.minimal ∧
        GetDataManager (run evs) = some DataManagerObj.minimal ∧
        GetDataVersion (run evs) = some minimalDataVersion ∧
        GetPosList (run evs) = some minimalPosList ∧
        GetPredictorName (run evs) = minimalPredictorName) ∧
      SetSpellchecker (run evs) sp = none := by
  intro evs sp hinit
  obtain ⟨h1, h2, h3, h4, h5⟩ := run_inv evs
  constructor
  · refine ⟨?_, ?_, ?_, ?_, ?_, ?_, ?_⟩ <;>
      simp [GetConverter, GetSuppressionDictionary, GetUserDataManager,
        GetDataManager, GetDataVersion, GetPosList, GetPredictorName,
        dataManagerVersion, hinit]
  · simp [SetSpellchecker, (h5 hinit).1]

/-- Counterexample to claim C9 as stated: at the empty key (with *result
holding "x" on entry) the delimiter condition fails and CalculateString
returns false, but it does not leave *result empty — the empty-key early
return (calculator.cc:119-122) is the one failure path that skips
result->clear(). -/
theorem c9_counterexample_empty_key_keeps_result :
    ¬(fullWidthAsciiToHalfWidthAscii ([] : List Char) ≠ [] ∧
      ((fullWidthAsciiToHalfWidthAscii ([] : List Char)).head? = some '=' ∨
        (fullWidthAsciiToHalfWidthAscii ([] : List Char)).getLast? = some '=')) ∧
    CalculateString calcFnNone [] ['x'] = (false, ['x']) ∧
    (CalculateString calcFnNone [] ['x']).2 ≠ [] := by
  refine ⟨by decide, rfl, by decide⟩

/-- Claim C9 amended: CalculateString returns false unless the key, after
full-width-ASCII-to-half-width normalization, is non-empty and begins or
ends with the character '='; in that failing case it clears *result when
the key is non-empty, but leaves *result untouched when the key is empty;
an empty key always yields false. -/
theorem c9_calculate_string_needs_eq_delimiter :
    ∀ (calcFn : List Token → Option (List Char)) (key res0 : List Char),
      (key = [] → CalculateString calcFn key res0 = (false, res0)) ∧
      (¬(fullWidthAsciiToHalfWidthAscii key ≠ [] ∧
          ((fullWidthAsciiToHalfWidthAscii key).head? = some '=' ∨
            (fullWidthAsciiToHalfWidthAscii key).getLast? = some '=')) →
        (CalculateString calcFn key res0).1 = false ∧
        (key ≠ [] → CalculateString calcFn key res0 = (false, []))) := by
  intro calcFn key res0
  constructor
  · intro hk
    simp [CalculateString, hk]
  · intro hcond
    by_cases hk : key = []
    · subst hk
      exact ⟨by simp [CalculateString], fun hne => absurd rfl hne⟩
    · have hne : fullWidthAsciiToHalfWidthAscii key ≠ [] := by
        rw [Ne, norm_nil_iff]
        exact hk
      have hno : ¬((fullWidthAsciiToHalfWidthAscii key).head? = some '=' ∨
          (fullWidthAsciiToHalfWidthAscii key).getLast? = some '=') :=
        fun hor => hcond ⟨hne, hor⟩
      rw [not_or] at hno
      obtain ⟨hno1, hno2⟩ := hno
      refine ⟨?_, fun _ => ?_⟩ <;>
        simp [CalculateString, hk, hno1, hno2]

/-- Witness for the amended C9: the key "1+2" (no '=' delimiter) yields
false with *result cleared, and the empty key yields false with *result
untouched. -/
theorem c9_calculate_string_needs_eq_delimiter_witness :
    CalculateString calcFnNone ['1', '+', '2'] ['x'] = (false, []) ∧
    CalculateString calcFnNone [] ['x'] = (false, ['x']) :=
  ⟨((c9_calculate_string_needs_eq_delimiter calcFnNone
      ['1', '+', '2'] ['x']).2 (by decide)).2 (by decide),
    (c9_calculate_string_needs_eq_delimiter calcFnNone [] ['x']).1 rfl⟩

/-- Claim C10: Tokenize succeeds only when the token sequence holds at
least one number token and at least one operator token, parentheses not
counting as operators; consequently CalculateString is false on every
'='-delimited expression whose (normalized) body has no non-parenthesis
operator character (only numbers, only parenthesized numbers) and on every
one whose body has no digit or dot character (only operators).  Both the
leading-'=' and the trailing-'=' delimiting are covered; for the trailing
one the body must not itself normalize to a leading '=' (otherwise the
code strips that '=' instead). -/
theorem c10_tokenize_needs_number_and_operator :
    (∀ (body : List Char) (toks : List Token),
      Tokenize body = some toks →
      1 ≤ countIntTokens toks ∧ 1 ≤ countOpTokens toks) ∧
    (∀ (calcFn : List Token → Option (List Char)) (body res0 : List Char),
      (∀ c ∈ fullWidthAsciiToHalfWidthAscii body, isNonParenOpChar c = false) →
      CalculateString calcFn ('=' :: body) res0 = (false, []) ∧
      ((fullWidthAsciiToHalfWidthAscii body).head? ≠ some '=' →
        CalculateString calcFn (body ++ ['=']) res0 = (false, []))) ∧
    (∀ (calcFn : List Token → Option (List Char)) (body res0 : List Char),
      (∀ c ∈ fullWidthAsciiToHalfWidthAscii body, isNumChar c = false) →
      CalculateString calcFn ('=' :: body) res0 = (false, []) ∧
      ((fullWidthAsciiToHalfWidthAscii body).head? ≠ some '=' →
        CalculateString calcFn (body ++ ['=']) res0 = (false, []))) := by
  refine ⟨Tokenize_some_counts, ?_, ?_⟩
  · intro calcFn body res0 hall
    have hnone := Tokenize_no_op_none (fullWidthAsciiToHalfWidthAscii body) hall
    constructor
    · rw [CalculateString_leading]
      exact calculateBody_of_tokenize_none calcFn _ hnone
    · intro hhead
      rw [CalculateString_trailing calcFn body res0 hhead]
      exact calculateBody_of_tokenize_none calcFn _ hnone
  · intro calcFn body res0 hall
    have hnone := Tokenize_no_num_none (fullWidthAsciiToHalfWidthAscii body) hall
    constructor
    · rw [CalculateString_leading]
      exact calculateBody_of_tokenize_none calcFn _ hnone
    · intro hhead
      rw [CalculateString_trailing calcFn body res0 hhead]
      exact calculateBody_of_tokenize_none calcFn _ hnone

/-- Witness for C10: "1+2" tokenizes with one operator and two numbers;
"=12" (numbers only), "(5)=" (parenthesized number only) and "=+"
(operator only) all yield false. -/
theorem c10_tokenize_needs_number_and_operator_witness :
    (1 ≤ countIntTokens [(TokenType.INTEGER, ['1']), (TokenType.PLUS, ['+']),
        (TokenType.INTEGER, ['2'])] ∧
      1 ≤ countOpTokens [(TokenType.INTEGER, ['1']), (TokenType.PLUS, ['+']),
        (TokenType.INTEGER, ['2'])]) ∧
    CalculateString calcFnNone ['=', '1', '2'] ['x'] = (false, []) ∧
    CalculateString calcFnNone ['(', '5', ')', '='] ['x'] = (false, []) ∧
    CalculateString calcFnNone ['=', '+'] ['x'] = (false, []) :=
  ⟨c10_tokenize_needs_number_and_operator.1 ['1', '+', '2']
      [(TokenType.INTEGER, ['1']), (TokenType.PLUS, ['+']),
        (TokenType.INTEGER, ['2'])] (by decide),
    (c10_tokenize_needs_number_and_operator.2.1 calcFnNone ['1', '2'] ['x']
      (by decide)).1,
    (c10_tokenize_needs_number_and_operator.2.1 calcFnNone ['(', '5', ')'] ['x']
      (by decide)).2 (by decide),
    (c10_tokenize_needs_number_and_operator.2.2 calcFnNone ['+'] ['x']
      (by decide)).1⟩

/-- Witness for the amended C5: on the fresh engine the guarded accessors
answer fallback objects while SetSpellchecker fails. -/
theorem c5_amended_witness :
    (GetConverter (run []) = some ConverterObj.minimal ∧
      GetSuppressionDictionary (run [])
        = some SuppressionDictionaryObj.minimal ∧
      GetUserDataManager (run []) = some UserDataManagerObj.minimal ∧
      GetDataManager (run []) = some DataManagerObj.minimal ∧
      GetDataVersion (run []) = some minimalDataVersion ∧
      GetPosList (run []) = some minimalPosList ∧
      GetPredictorName (run []) = minimalPredictorName) ∧
    SetSpellchecker (run []) (some 3) = none :=
  c5_amended_fallback_covers_accessors_not_spellchecker [] (some 3) (by decide)

end FcitxMozc
